import Mathlib

/-!
Shallow embedding of `src/blockchain.js` (class `Blockchain`) from the
repository `huglap/private_blockchain_example`.

The hash collaborator (`SHA256(JSON.stringify(block))`, taken at the moment
of sealing, i.e. over all fields except `hash` itself) and the signature
collaborator (`bitcoinMessage.verify`) are external libraries; they are
modelled as explicit function parameters, with digests as natural numbers.
Promises are modelled by explicit outcome types: a resolved value, a
rejected error, or a promise that never settles (`pending`).
The `Block` record class lives in `./block.js`, which is not part of the
analysed source; its two capabilities (`validate`, `getBData`) are modelled
from the spec and marked as such.
-/

namespace PrivateBlockchain

/-- The decoded body of a block: either the genesis marker
`{data: 'Genesis Block'}` or a star record `{owner, star}` (the star
payload itself is opaque and modelled as a string). -/
inductive Body where
  | genesis : Body
  | star (owner : String) (payload : String) : Body
deriving DecidableEq

/-- A sealed block as produced by `_addBlock`: `height`, `time` (integer
seconds since epoch), the decoded `body`, the optional `previousBlockHash`
(absent for the genesis block) and the sealed `hash`. -/
structure Block where
  height : Nat
  time : Nat
  body : Body
  previousBlockHash : Option Nat
  hash : Nat
deriving DecidableEq

/-- The hash collaborator: a digest of a block's fields excluding `hash`
(this is what `SHA256(JSON.stringify(block))` computes in `_addBlock`,
since `hash` is still unset when the digest is taken). -/
abbrev HashFn := Nat → Nat → Body → Option Nat → Nat

/-- The signature-verification collaborator
`bitcoinMessage.verify(message, address, signature)`. -/
abbrev VerifyFn := String → String → String → Bool

/-- The mutable state of a `Blockchain` object: the `chain` array and the
`height` counter (an integer, since the constructor sets it to `-1`). -/
structure ChainState where
  chain : List Block
  height : Int
deriving DecidableEq

/-- `this.chain = []; this.height = -1;` as set by the constructor before
`initializeChain()` runs. -/
def initState : ChainState := ⟨[], -1⟩

/-- Modelled from the spec: `block.validate()` lives in `./block.js`,
which is not part of the analysed source.  Per the spec the Block Record
self-validates by recomputing the content hash over all fields except
`hash` and comparing it with the stored `hash`. -/
def blockValidate (hashFn : HashFn) (b : Block) : Bool :=
  b.hash == hashFn b.height b.time b.body b.previousBlockHash

/-- `validateChain()`: maps `block.validate()` over the chain, keeps the
failing results and resolves `true` exactly when there is none.  The code
performs no `previousBlockHash` linkage check, despite its own doc
comment's step 2. -/
def validateChain (hashFn : HashFn) (chain : List Block) : Bool :=
  chain.all (fun b => blockValidate hashFn b)

/-- `this.chain[this.chain.length - 1].hash` when the chain is non-empty
(the `if(this.chain.length)` guard); for an empty chain
`previousBlockHash` is left unset. -/
def prevOfChain : List Block → Option Nat
  | [] => none
  | [b] => some b.hash
  | _ :: rest => prevOfChain rest

/-- The error `_addBlock` rejects with
(`throw new Error("Chain corruption detected")`). -/
inductive ChainError where
  | chainCorruption : ChainError
deriving DecidableEq

/-- `_addBlock(block)`: awaits `validateChain()` first and rejects with
the chain-corruption error when it is false; otherwise assigns
`height = this.chain.length`, `time`, `previousBlockHash` (only when the
chain is non-empty), seals `hash` over the already-assigned fields, pushes
the block and sets `this.height` to the value returned by `push`, namely
the new array length.  The returned state is the object state after the
call (unchanged on rejection). -/
def _addBlock (hashFn : HashFn) (st : ChainState) (body : Body) (now : Nat) :
    ChainState × Except ChainError Block :=
  if validateChain hashFn st.chain then
    let sealed : Block :=
      ⟨st.chain.length, now, body, prevOfChain st.chain,
        hashFn st.chain.length now body (prevOfChain st.chain)⟩
    (⟨st.chain ++ [sealed], ((st.chain.length + 1 : Nat) : Int)⟩, Except.ok sealed)
  else (st, Except.error ChainError.chainCorruption)

/-- The constructor followed by `initializeChain()`: a fresh `Blockchain`
has `height === -1`, so it appends the genesis block through `_addBlock`;
an error there is only logged (`console.error`), leaving the state as it
was. -/
def newBlockchain (hashFn : HashFn) (now : Nat) : ChainState :=
  (_addBlock hashFn initState Body.genesis now).1

/-- `getChainHeight()` resolves with `this.height`. -/
def getChainHeight (st : ChainState) : Int := st.height

/-- Outcome of `requestMessageOwnershipVerification`: resolved with the
challenge message, or rejected with the `ReferenceError` produced by
calling the unbound name `reject`. -/
inductive RequestOutcome where
  | resolved (message : String) : RequestOutcome
  | rejectedReferenceError : RequestOutcome
deriving DecidableEq

/-- `requestMessageOwnershipVerification(address)`: on a falsy (empty)
address the executor calls `reject`, a name the executor
`new Promise((resolve) => ...)` does not bind, so a `ReferenceError` is
thrown inside the executor and the promise is rejected with it; otherwise
it resolves with `"<address>:<seconds>:starRegistry"`. -/
def requestMessageOwnershipVerification (now : Nat) (address : String) :
    RequestOutcome :=
  if address = "" then RequestOutcome.rejectedReferenceError
  else RequestOutcome.resolved (address ++ ":" ++ Nat.repr now ++ ":starRegistry")

/-- `message.split(':')` on the character list of the message: splits at
every colon, keeping empty fields. -/
def splitColonAux : List Char → List Char → List (List Char)
  | [], acc => [acc.reverse]
  | c :: rest, acc =>
    if c = ':' then acc.reverse :: splitColonAux rest []
    else splitColonAux rest (c :: acc)

/-- `message.split(':')`. -/
def splitColon (message : String) : List (List Char) :=
  splitColonAux message.data []

/-- The numeric value of the leading decimal digits of a field, or `none`
when there is no leading digit (JavaScript `NaN`). -/
def digitsVal (cs : List Char) : Option Nat :=
  let ds := cs.takeWhile Char.isDigit
  if ds.isEmpty then none
  else some (ds.foldl (fun a c => a * 10 + (c.toNat - 48)) 0)

/-- JavaScript `parseInt` in radix 10: optional leading spaces, an
optional sign, then the leading run of digits; `none` models `NaN`. -/
def parseIntJS (cs : List Char) : Option Int :=
  match cs.dropWhile (fun c => c == ' ') with
  | '-' :: rest => (digitsVal rest).map (fun n => -(n : Int))
  | '+' :: rest => (digitsVal rest).map (fun n => (n : Int))
  | rest => (digitsVal rest).map (fun n => (n : Int))

/-- `parseInt(message.split(':')[1])`: `none` models `NaN` (either the
message has no second colon-delimited field, or that field has no leading
digit). -/
def parseTimestamp (message : String) : Option Int :=
  match (splitColon message)[1]? with
  | some fieldChars => parseIntJS fieldChars
  | none => none

/-- Errors `submitStar` can reject with, together with the spec's error
taxonomy: `malformedMessage` and `invalidSignature` belong to the spec's
taxonomy but the code never produces them. -/
inductive SubmitError where
  | tooLate : SubmitError
  | chainCorruption : SubmitError
  | malformedMessage : SubmitError
  | invalidSignature : SubmitError
deriving DecidableEq

/-- Outcome of `submitStar`: resolved with the added block, rejected with
an error, or `pending` when the executor returns without calling either
`resolve` or `reject`, so the promise never settles. -/
inductive SubmitOutcome where
  | resolved (b : Block) : SubmitOutcome
  | rejected (e : SubmitError) : SubmitOutcome
  | pending : SubmitOutcome
deriving DecidableEq

/-- The tail of `submitStar` once the freshness check has passed: verify
the signature; on success build the star block, `_addBlock` it and resolve
(a rejection of `_addBlock` is caught and re-rejected); when verification
returns false neither `resolve` nor `reject` is called. -/
def verifyAndAppend (hashFn : HashFn) (verify : VerifyFn) (st : ChainState)
    (address message signature payload : String) (now : Nat) :
    ChainState × SubmitOutcome :=
  if verify message address signature then
    match _addBlock hashFn st (Body.star address payload) now with
    | (st1, Except.ok b) => (st1, SubmitOutcome.resolved b)
    | (st1, Except.error ChainError.chainCorruption) =>
        (st1, SubmitOutcome.rejected SubmitError.chainCorruption)
  else (st, SubmitOutcome.pending)

/-- `submitStar(address, message, signature, star)`: parses the embedded
timestamp, evaluates `currentTime - starCreationTime < (60*5)` (false when
the parse yields `NaN`, so such messages take the `reject("too late!")`
branch exactly like expired ones) and otherwise proceeds to signature
verification. -/
def submitStar (hashFn : HashFn) (verify : VerifyFn) (st : ChainState)
    (address message signature payload : String) (now : Nat) :
    ChainState × SubmitOutcome :=
  match parseTimestamp message with
  | some t =>
    if (now : Int) - t < 300 then
      verifyAndAppend hashFn verify st address message signature payload now
    else (st, SubmitOutcome.rejected SubmitError.tooLate)
  | none => (st, SubmitOutcome.rejected SubmitError.tooLate)

/-- Modelled from the spec: `block.getBData()` lives in `./block.js`,
which is not part of the analysed source.  Per the spec it decodes the
body and never raises; a decoded star record carries its `owner` field,
while the genesis marker has no owner (so an `owner === address`
comparison on it is false for every address). -/
def bodyOwner : Body → Option String
  | Body.genesis => none
  | Body.star o _ => some o

/-- `getStarsByWalletAddress(address)`: maps every block to its decoded
body when `block.height` is truthy (non-zero) and the decoded body's
`owner` equals `address`, and to `undefined` otherwise, then filters the
truthy values; `List.filterMap` is exactly this map-then-filter
composition, and `Promise.all` keeps the chain's order. -/
def getStarsByWalletAddress (chain : List Block) (address : String) :
    List Body :=
  chain.filterMap (fun b =>
    if b.height ≠ 0 then
      if bodyOwner b.body = some address then some b.body else none
    else none)

/-- The spec's description of `getStarsByOwner`: in append order, exactly
the decoded bodies of the blocks at height ≥ 1 whose owner equals
`address`. -/
def getStarsByOwnerSpec (chain : List Block) (address : String) :
    List Body :=
  (chain.filter (fun b => decide (1 ≤ b.height) && (bodyOwner b.body == some address))).map
    (fun b => b.body)

/-- `linkedFrom prev chain` holds when the first block of `chain` stores
`prev` as its `previousBlockHash` and every later block stores the sealed
hash of its immediate predecessor. -/
def linkedFrom : Option Nat → List Block → Bool
  | _, [] => true
  | prev, b :: rest => (b.previousBlockHash == prev) && linkedFrom (some b.hash) rest

/-- Hash linkage for a whole chain: the first block has no
`previousBlockHash` and every later block points at its predecessor. -/
def wellLinked (chain : List Block) : Bool := linkedFrom none chain

/-- The hash a block appended after `chain` must point at: `prev` for the
empty chain, otherwise the sealed hash of the last block. -/
def lastHashFrom (prev : Option Nat) : List Block → Option Nat
  | [] => prev
  | b :: rest => lastHashFrom (some b.hash) rest

/-- Iterated `_addBlock`: `some` of the final state when every append in
the sequence succeeds, `none` as soon as one rejects. -/
def runAppendsOk (hashFn : HashFn) : ChainState → List (Body × Nat) → Option ChainState
  | st, [] => some st
  | st, (b, t) :: rest =>
    match _addBlock hashFn st b t with
    | (st1, Except.ok _) => runAppendsOk hashFn st1 rest
    | (_, Except.error _) => none

/-- A concrete instance of the hash collaborator for concrete runs:
a pairing-based digest of the sealed fields. -/
def encodeString (s : String) : Nat :=
  s.data.foldl (fun a c => a * 1114112 + (c.toNat + 1)) 0

/-- Numeric code of a body, used by `cHash`. -/
def encodeBody : Body → Nat
  | Body.genesis => 0
  | Body.star o p => Nat.pair (encodeString o) (encodeString p) + 1

/-- Numeric code of an optional digest, used by `cHash`. -/
def encodeOpt : Option Nat → Nat
  | none => 0
  | some n => n + 1

/-- A concrete hash collaborator. -/
def cHash : HashFn :=
  fun h t b p => Nat.pair h (Nat.pair t (Nat.pair (encodeBody b) (encodeOpt p)))

/-- The constant-zero hash collaborator; the structural facts it is used
for do not depend on the digest values. -/
def hashZero : HashFn := fun _ _ _ _ => 0

/-- A verifier that rejects every signature. -/
def verifyNever : VerifyFn := fun _ _ _ => false

/-- A one-block state whose stored hash differs from its recomputed hash,
so `validateChain` fails on it. -/
def badChainState : ChainState := ⟨[⟨0, 0, Body.genesis, none, 1⟩], 0⟩

/-- A height-0 block correctly sealed with `cHash`. -/
def c2block0 : Block := ⟨0, 100, Body.genesis, none, cHash 0 100 Body.genesis none⟩

/-- A block that self-validates under `cHash` but whose
`previousBlockHash` does not match `c2block0.hash`. -/
def c2block1 : Block :=
  ⟨1, 101, Body.star "a" "s", some (cHash 0 100 Body.genesis none + 1),
    cHash 1 101 (Body.star "a" "s") (some (cHash 0 100 Body.genesis none + 1))⟩

/-- `prevOfChain` on a cons is the last hash of the tail seeded with the
head's hash. -/
theorem prevOfChain_cons (b : Block) (rest : List Block) :
    prevOfChain (b :: rest) = lastHashFrom (some b.hash) rest := by
  induction rest generalizing b with
  | nil => rfl
  | cons c t ih => simpa [prevOfChain, lastHashFrom] using ih c

/-- `prevOfChain` computes the hash the next appended block will store. -/
theorem prevOfChain_eq (chain : List Block) :
    prevOfChain chain = lastHashFrom none chain := by
  cases chain with
  | nil => rfl
  | cons b rest => simpa [lastHashFrom] using prevOfChain_cons b rest

/-- Linkage over a snoc: the old chain must be linked and the appended
block must point at the old chain's last hash. -/
theorem linkedFrom_append (b : Block) (chain : List Block) : ∀ prev : Option Nat,
    linkedFrom prev (chain ++ [b]) =
      (linkedFrom prev chain && (b.previousBlockHash == lastHashFrom prev chain)) := by
  induction chain with
  | nil => intro prev; simp [linkedFrom, lastHashFrom]
  | cons c rest ih =>
    intro prev
    simp [linkedFrom, lastHashFrom, ih (some c.hash), Bool.and_assoc]

/-- A successful `_addBlock` preserves the shape invariant: heights are
exactly the positions, linkage holds, and the chain grows by one. -/
theorem addBlock_ok_props (hashFn : HashFn) (st : ChainState) (b : Body) (t : Nat)
    (st1 : ChainState) (blk : Block)
    (h : _addBlock hashFn st b t = (st1, Except.ok blk))
    (h1 : st.chain.map Block.height = List.range st.chain.length)
    (h2 : wellLinked st.chain = true) :
    st1.chain.map Block.height = List.range st1.chain.length ∧
      wellLinked st1.chain = true ∧ st1.chain.length = st.chain.length + 1 := by
  by_cases hv : validateChain hashFn st.chain = true
  · rw [_addBlock.eq_def, if_pos hv] at h
    injection h with hst hexc
    injection hexc with hblk
    subst hst
    refine ⟨?_, ?_, by simp⟩
    · simp [h1, List.range_succ]
    · simp [wellLinked, linkedFrom_append, prevOfChain_eq]
      exact h2
  · rw [_addBlock.eq_def, if_neg hv] at h
    injection h with hst hexc
    exact absurd hexc (by simp)

/-- Iterated successful appends preserve the shape invariant and add one
block per input. -/
theorem runAppendsOk_props (hashFn : HashFn) (inputs : List (Body × Nat)) :
    ∀ st st1 : ChainState,
    runAppendsOk hashFn st inputs = some st1 →
    st.chain.map Block.height = List.range st.chain.length →
    wellLinked st.chain = true →
    st1.chain.map Block.height = List.range st1.chain.length ∧
      wellLinked st1.chain = true ∧
      st1.chain.length = st.chain.length + inputs.length := by
  induction inputs with
  | nil =>
    intro st st1 h h1 h2
    simp only [runAppendsOk, Option.some.injEq] at h
    subst h
    exact ⟨h1, h2, by simp⟩
  | cons p rest ih =>
    intro st st1 h h1 h2
    obtain ⟨pb, pt⟩ := p
    rcases hx : _addBlock hashFn st pb pt with ⟨stm, res⟩
    cases res with
    | error e => simp [runAppendsOk, hx] at h
    | ok blk =>
      simp only [runAppendsOk, hx] at h
      obtain ⟨g1, g2, g3⟩ := addBlock_ok_props hashFn st pb pt stm blk hx h1 h2
      obtain ⟨r1, r2, r3⟩ := ih stm st1 h g1 g2
      refine ⟨r1, r2, ?_⟩
      simp only [List.length_cons]
      omega

/-- A linked chain, read pointwise: the first block stores the seed and
every block at position `i + 1` points at the block at position `i`. -/
theorem linkedFrom_pointwise (chain : List Block) : ∀ prev : Option Nat,
    linkedFrom prev chain = true →
    (∀ i : Nat, ∀ hi : i + 1 < chain.length,
      (chain.get ⟨i + 1, hi⟩).previousBlockHash =
        some ((chain.get ⟨i, Nat.lt_of_succ_lt hi⟩).hash)) ∧
    (∀ b0 : Block, chain.head? = some b0 → b0.previousBlockHash = prev) := by
  induction chain with
  | nil =>
    intro prev _
    refine ⟨fun i hi => absurd hi (by simp), fun b0 hb => by cases hb⟩
  | cons b rest ih =>
    intro prev hl
    have hl2 : (b.previousBlockHash == prev) = true ∧ linkedFrom (some b.hash) rest = true := by
      simpa [linkedFrom, Bool.and_eq_true] using hl
    have hbp : b.previousBlockHash = prev := eq_of_beq hl2.1
    have ihr := ih (some b.hash) hl2.2
    refine ⟨fun i hi => ?_, fun b0 hb => ?_⟩
    · cases i with
      | zero =>
        cases rest with
        | nil => exact absurd hi (by simp)
        | cons c t => exact ihr.2 c rfl
      | succ j =>
        have hj : j + 1 < rest.length := by
          simp only [List.length_cons] at hi
          omega
        show (rest.get ⟨j + 1, hj⟩).previousBlockHash =
          some ((rest.get ⟨j, Nat.lt_of_succ_lt hj⟩).hash)
        exact ihr.1 j hj
    · have hb0 : b0 = b := by
        simp only [List.head?_cons, Option.some.injEq] at hb
        exact hb.symm
      rw [hb0, hbp]

/-- C1: for every sequence of successful appends through `_addBlock`
starting from the empty chain, the resulting chain's heights are exactly
`0..N-1` in order (no gaps or repeats), every block after the first stores
the sealed hash of its predecessor as `previousBlockHash`, and the first
block (height 0) has no `previousBlockHash`. -/
theorem c1_successful_appends_shape (hashFn : HashFn) (inputs : List (Body × Nat))
    (st : ChainState) (h : runAppendsOk hashFn initState inputs = some st) :
    st.chain.map Block.height = List.range inputs.length ∧
    (∀ i : Nat, ∀ hi : i + 1 < st.chain.length,
      (st.chain.get ⟨i + 1, hi⟩).previousBlockHash =
        some ((st.chain.get ⟨i, Nat.lt_of_succ_lt hi⟩).hash)) ∧
    (∀ b0 : Block, st.chain.head? = some b0 → b0.previousBlockHash = none) := by
  obtain ⟨h1, h2, h3⟩ := runAppendsOk_props hashFn inputs initState st h rfl rfl
  have hp := linkedFrom_pointwise st.chain none h2
  refine ⟨?_, hp.1, hp.2⟩
  rw [h1, h3]
  simp [initState]

/-- C1 witness: a concrete two-append run from the empty chain, with the
hypothesis discharged by computation. -/
theorem c1_witness :
    ([⟨0, 5, Body.genesis, none, 0⟩, ⟨1, 6, Body.star "a" "p", some 0, 0⟩] :
        List Block).map Block.height = List.range 2 := by
  have h := c1_successful_appends_shape hashZero
    [(Body.genesis, 5), (Body.star "a" "p", 6)]
    ⟨[⟨0, 5, Body.genesis, none, 0⟩, ⟨1, 6, Body.star "a" "p", some 0, 0⟩], 2⟩
    (by decide)
  exact h.1

/-- C2 (code-bug evidence): `validateChain` resolves `true` on a chain
whose blocks all self-validate even though the second block's
`previousBlockHash` does not match the first block's sealed hash, because
the implementation performs no linkage check (contradicting its own doc
comment's step 2 and the spec). -/
theorem c2_validateChain_ignores_linkage :
    validateChain cHash [c2block0, c2block1] = true ∧
      wellLinked [c2block0, c2block1] = false := by
  constructor
  · decide
  · decide

/-- C3 (code-bug evidence): a freshly initialized ledger (genesis block
only) has `getChainHeight` equal to 1, not `chain.length - 1 = 0`, because
`_addBlock` stores the return value of `Array.push` (the new length) in
`this.height`. -/
theorem c3_height_counter_off_by_one :
    getChainHeight (newBlockchain cHash 1000) = 1 ∧
      (newBlockchain cHash 1000).chain.length = 1 ∧
      getChainHeight (newBlockchain cHash 1000) ≠
        ((newBlockchain cHash 1000).chain.length : Int) - 1 := by
  refine ⟨by decide, by decide, by decide⟩

/-- C4: when the pre-write chain validation fails, `_addBlock` rejects
with the chain-corruption error and performs no mutation: the state (chain
and height counter) it leaves behind is exactly the state it was given. -/
theorem c4_addBlock_rejects_without_mutation (hashFn : HashFn) (st : ChainState)
    (b : Body) (now : Nat) (h : validateChain hashFn st.chain = false) :
    _addBlock hashFn st b now = (st, Except.error ChainError.chainCorruption) := by
  simp [_addBlock, h]

/-- C4 witness: a concrete corrupted one-block state, with the failing
validation discharged by computation. -/
theorem c4_witness :
    _addBlock cHash badChainState Body.genesis 5 =
      (badChainState, Except.error ChainError.chainCorruption) :=
  c4_addBlock_rejects_without_mutation cHash badChainState Body.genesis 5 (by decide)

/-- C5 (code-bug evidence): with a fresh message (elapsed 100 < 300
seconds) and a verifier that returns false, `submitStar` calls neither
`resolve` nor `reject`: the promise stays pending forever and the state is
unchanged (no append), instead of rejecting with an invalid-signature
error. -/
theorem c5_invalid_signature_hangs :
    submitStar cHash verifyNever (newBlockchain cHash 1000) "addr"
        "addr:2000:starRegistry" "sig" "starData" 2100 =
      (newBlockchain cHash 1000, SubmitOutcome.pending) := by
  decide

/-- C6: with a parseable embedded timestamp, `submitStar` rejects with
`"too late!"` (the spec's `VerificationExpired`) exactly when the elapsed
time is at least 300 seconds, and otherwise proceeds to signature
verification (the `verifyAndAppend` tail). -/
theorem c6_expiry_window (hashFn : HashFn) (verify : VerifyFn) (st : ChainState)
    (address message signature payload : String) (now : Nat) (t : Int)
    (h : parseTimestamp message = some t) :
    (300 ≤ (now : Int) - t →
      submitStar hashFn verify st address message signature payload now =
        (st, SubmitOutcome.rejected SubmitError.tooLate)) ∧
    ((now : Int) - t < 300 →
      submitStar hashFn verify st address message signature payload now =
        verifyAndAppend hashFn verify st address message signature payload now) := by
  constructor
  · intro hle
    simp [submitStar, h, if_neg (by omega : ¬((now : Int) - t < 300))]
  · intro hlt
    simp [submitStar, h, if_pos hlt]

/-- C6 witness: a message stamped 1000, submitted at 1301 (301 seconds
elapsed, rejected) and at 1299 (299 seconds elapsed, proceeds to
verification), with the hypotheses discharged by computation. -/
theorem c6_witness :
    submitStar cHash verifyNever initState "a" "a:1000:starRegistry" "s" "p" 1301 =
      (initState, SubmitOutcome.rejected SubmitError.tooLate) ∧
    submitStar cHash verifyNever initState "a" "a:1000:starRegistry" "s" "p" 1299 =
      verifyAndAppend cHash verifyNever initState "a" "a:1000:starRegistry" "s" "p" 1299 := by
  constructor
  · exact (c6_expiry_window cHash verifyNever initState "a" "a:1000:starRegistry"
      "s" "p" 1301 1000 (by decide)).1 (by decide)
  · exact (c6_expiry_window cHash verifyNever initState "a" "a:1000:starRegistry"
      "s" "p" 1299 1000 (by decide)).2 (by decide)

/-- C7 counterexample: the message `"hello"` does not match the
three-field colon-delimited shape, yet `submitStar` rejects with
`"too late!"` — not with a malformed-message error, which the code never
produces. -/
theorem c7_no_malformed_message_error :
    submitStar cHash verifyNever initState "a" "hello" "s" "p" 1000 =
      (initState, SubmitOutcome.rejected SubmitError.tooLate) ∧
    SubmitError.tooLate ≠ SubmitError.malformedMessage := by
  decide

/-- C7 amended: `submitStar` has no malformed-message failure; whenever
the message's second colon-delimited field does not parse to an integer
(`NaN`), the freshness comparison is false and it rejects with
`"too late!"` (the expiry path), with no append. -/
theorem c7_unparseable_timestamp_rejects_tooLate (hashFn : HashFn) (verify : VerifyFn)
    (st : ChainState) (address message signature payload : String) (now : Nat)
    (h : parseTimestamp message = none) :
    submitStar hashFn verify st address message signature payload now =
      (st, SubmitOutcome.rejected SubmitError.tooLate) := by
  simp [submitStar, h]

/-- C7 witness: a colon-free message on a freshly initialized ledger, with
the failing parse discharged by computation. -/
theorem c7_amended_witness :
    submitStar cHash verifyNever (newBlockchain cHash 7) "addr" "nocolonmessage"
        "sig" "star" 50 =
      (newBlockchain cHash 7, SubmitOutcome.rejected SubmitError.tooLate) :=
  c7_unparseable_timestamp_rejects_tooLate cHash verifyNever (newBlockchain cHash 7)
    "addr" "nocolonmessage" "sig" "star" 50 (by decide)

/-- C8 (code-bug evidence): on the empty address the promise is rejected
with the `ReferenceError` raised by the unbound name `reject` — not with
an invalid-address error raised synchronously — while a non-empty address
resolves with the challenge message as described. -/
theorem c8_empty_address_reference_error :
    requestMessageOwnershipVerification 1000 "" =
      RequestOutcome.rejectedReferenceError ∧
    requestMessageOwnershipVerification 1000 "abc" =
      RequestOutcome.resolved "abc:1000:starRegistry" := by
  constructor
  · decide
  · decide

/-- C9: `getStarsByWalletAddress` returns, in chain order, exactly the
decoded bodies of the blocks at height ≥ 1 whose owner equals the given
address — the height-0 genesis block is never included and ownerless
bodies are excluded without any error. -/
theorem c9_stars_by_wallet_matches_spec (chain : List Block) (address : String) :
    getStarsByWalletAddress chain address = getStarsByOwnerSpec chain address := by
  induction chain with
  | nil => rfl
  | cons b rest ih =>
    by_cases h0 : b.height = 0
    · simp [getStarsByWalletAddress, getStarsByOwnerSpec, List.filterMap_cons,
        List.filter_cons, h0] at ih ⊢
      exact ih
    · by_cases ho : bodyOwner b.body = some address
      · simp [getStarsByWalletAddress, getStarsByOwnerSpec, List.filterMap_cons,
          List.filter_cons, h0, ho, Nat.one_le_iff_ne_zero] at ih ⊢
        exact ih
      · simp [getStarsByWalletAddress, getStarsByOwnerSpec, List.filterMap_cons,
          List.filter_cons, h0, ho, Nat.one_le_iff_ne_zero] at ih ⊢
        exact ih

/-- C10: `validateChain` on the empty chain resolves `true`, so the
pre-write validation gate inside `_addBlock` passes for the very first
(genesis) append, which therefore succeeds. -/
theorem c10_empty_chain_validates (hashFn : HashFn) (b : Body) (now : Nat) :
    validateChain hashFn [] = true ∧
    ∃ blk : Block, _addBlock hashFn initState b now = (⟨[blk], 1⟩, Except.ok blk) := by
  refine ⟨rfl, ⟨⟨0, now, b, none, hashFn 0 now b none⟩, ?_⟩⟩
  rfl

end PrivateBlockchain
